import Mathlib

/-
Verification of the sharepic-api engagement core (src/index.js):
author normalization, deterministic rating document ids, the comment /
rating / photo request handlers, the rating summary aggregator, and
Cosmos configuration verification.  Strings are modelled as Lean
strings (lists of characters); JS numbers that reach the rating paths
are modelled as rationals, with `Option` capturing the non-finite
results of the `Number(...)` coercion (`NaN`, infinities); the three
Cosmos collections are modelled as lists of documents, with upsert
keyed on (partition key, id) exactly as the store does.
-/

namespace SharePic

/-- Character class of JavaScript whitespace: the set matched by
`String.prototype.trim` and by the regex class `\s`
(tab, LF, VT, FF, CR, space, NBSP, Ogham space mark, the U+2000 block,
line/paragraph separators, narrow NBSP, math space, ideographic space,
BOM). -/
def isWs (c : Char) : Bool :=
  (9 ≤ c.toNat && c.toNat ≤ 13) || c.toNat == 32 || c.toNat == 160 ||
  c.toNat == 5760 || (8192 ≤ c.toNat && c.toNat ≤ 8202) ||
  c.toNat == 8232 || c.toNat == 8233 || c.toNat == 8239 ||
  c.toNat == 8287 || c.toNat == 12288 || c.toNat == 65279

/-- Embedding of JavaScript `s.trim()`: drop whitespace from both ends. -/
def jsTrim (s : String) : String :=
  String.mk (((s.data.dropWhile isWs).reverse.dropWhile isWs).reverse)

/-- Embedding of `s.replace(/\s+/g, " ")`: every maximal run of
whitespace characters is replaced by a single space (the space is
emitted at the last character of each run). -/
def collapseWs : List Char → List Char
  | [] => []
  | [a] => [if isWs a then Char.ofNat 32 else a]
  | a :: b :: t =>
    if isWs a && isWs b then collapseWs (b :: t)
    else (if isWs a then Char.ofNat 32 else a) :: collapseWs (b :: t)

/-- src/index.js lines 77-81, `normalizeAuthor`:
`String(author || "anonymous").trim().replace(/\s+/g, " ").slice(0, 40) || "anonymous"`.
An absent (`undefined`/`null`) author coerces, like the empty string, to
the falsy branch of `author || "anonymous"`, so absence is modelled as `""`. -/
def normalizeAuthor (author : String) : String :=
  let a := jsTrim (if author = "" then "anonymous" else author)
  let r := List.take 40 (collapseWs a.data)
  if r = [] then "anonymous" else String.mk r

/-- The character class `[a-zA-Z0-9._-]` of the sanitizing regex in
`ratingDocId` (src/index.js line 85). -/
def isSafeChar (c : Char) : Bool :=
  (97 ≤ c.toNat && c.toNat ≤ 122) || (65 ≤ c.toNat && c.toNat ≤ 90) ||
  (48 ≤ c.toNat && c.toNat ≤ 57) || c.toNat == 46 || c.toNat == 95 ||
  c.toNat == 45

/-- `normalizeAuthor(author).replace(/[^a-zA-Z0-9._-]/g, "_")`
(src/index.js line 85): every character outside the safe class becomes
an underscore (`Char.ofNat 95`). -/
def safeAuthorOf (author : String) : String :=
  String.mk ((normalizeAuthor author).data.map
    (fun c => if isSafeChar c then c else Char.ofNat 95))

/-- src/index.js lines 83-87, `ratingDocId`: the template literal
`${photoId}::${safeAuthor}`. -/
def ratingDocId (photoId author : String) : String :=
  photoId ++ "::" ++ safeAuthorOf author

/-- Photo document assembled by POST /api/photos (src/index.js lines 168-179). -/
structure PhotoDoc where
  id : String
  imageUrl : String
  blobName : String
  title : String
  caption : String
  location : String
  people : List String
  createdAt : String
deriving DecidableEq

/-- Comment document (src/index.js lines 220-226). -/
structure CommentDoc where
  id : String
  photoId : String
  author : String
  text : String
  createdAt : String
deriving DecidableEq

/-- Rating document (src/index.js lines 282-288). -/
structure RatingDoc where
  id : String
  photoId : String
  author : String
  value : ℚ
  createdAt : String
deriving DecidableEq

/-- The three Cosmos collections the handlers touch. -/
structure AppState where
  photos : List PhotoDoc
  comments : List CommentDoc
  ratings : List RatingDoc
deriving DecidableEq

/-- Cosmos document identity inside the ratings collection: a document
is matched by (partition key `photoId`, document `id`), the key
`items.upsert` replaces on. -/
def sameRatingKey (d e : RatingDoc) : Bool :=
  e.photoId == d.photoId && e.id == d.id

/-- Cosmos `items.upsert` on the ratings collection: replace the
document with the same (partition key, id) if present, else append
(write-if-absent-else-replace). -/
def upsertRating (l : List RatingDoc) (d : RatingDoc) : List RatingDoc :=
  if l.any (fun e => sameRatingKey d e) then
    l.map (fun e => if sameRatingKey d e then d else e)
  else l ++ [d]

/-- The stored rating documents for a (photoId, normalized author)
pair: those whose partition key is the photo and whose id is the
deterministic rating id of that author. -/
def ratingsFor (l : List RatingDoc) (p na : String) : List RatingDoc :=
  l.filter (fun e => e.photoId == p && e.id == ratingDocId p na)

/-- Structural uniqueness the store guarantees: no two documents of the
collection share (partition key, id). -/
def KeyNodup (l : List RatingDoc) : Prop :=
  l.Pairwise (fun d e => (d.photoId, d.id) ≠ (e.photoId, e.id))

/-- src/index.js lines 270-310, POST /api/photos/:photoId/ratings.
The submitted value is `Number(req.body.value)`; a non-finite coercion
result (`NaN`, `±Infinity`) is modelled as `none` and, like every
non-integer, fails `Number.isInteger`.  On success the handler upserts
the document and answers 201; on validation failure it answers 400
without touching the store.  Only the status code of the response is
modelled. -/
def postRating (s : AppState) (photoId author : String) (value : Option ℚ)
    (now : String) : AppState × Nat :=
  let a := normalizeAuthor author
  match value with
  | none => (s, 400)
  | some v =>
    if v.isInt = false ∨ v < 1 ∨ 5 < v then (s, 400)
    else
      ({ s with ratings :=
          upsertRating s.ratings ⟨ratingDocId photoId a, photoId, a, v, now⟩ },
       201)

/-- src/index.js lines 210-235, POST /api/photos/:photoId/comments:
trim the text, normalize the author, reject empty text with 400,
otherwise create the comment document (`id` is the fresh uuid, `now`
the server timestamp) and answer 201. -/
def postComment (s : AppState) (photoId author text id now : String) :
    AppState × Nat :=
  let t := jsTrim text
  let a := normalizeAuthor author
  if t = "" then (s, 400)
  else ({ s with comments := s.comments ++ [⟨id, photoId, a, t, now⟩] }, 201)

/-- The JS distribution object `{ 1: 0, 2: 0, 3: 0, 4: 0, 5: 0 }`
(src/index.js line 256): all five buckets are always present. -/
structure Dist where
  b1 : ℕ
  b2 : ℕ
  b3 : ℕ
  b4 : ℕ
  b5 : ℕ
deriving DecidableEq

/-- Bucket of a single value (src/index.js line 258):
`Math.max(1, Math.min(5, Math.round(v)))`.  JavaScript `Math.round`
rounds to the nearest integer with ties toward positive infinity,
which on rationals is Mathlib's `round` (`⌊v + 1/2⌋`). -/
def bucketOf (v : ℚ) : ℤ :=
  max 1 (min 5 (round v))

/-- `dist[vv] = (dist[vv] || 0) + 1` for `vv = bucketOf v`; `vv` always
lands in 1..5 (proved below), so the catch-all branch is unreachable. -/
def bump (d : Dist) (b : ℤ) : Dist :=
  if b = 1 then { d with b1 := d.b1 + 1 }
  else if b = 2 then { d with b2 := d.b2 + 1 }
  else if b = 3 then { d with b3 := d.b3 + 1 }
  else if b = 4 then { d with b4 := d.b4 + 1 }
  else if b = 5 then { d with b5 := d.b5 + 1 }
  else d

/-- src/index.js lines 256-260: fold the bucket counting over the
values, starting from the all-zero object. -/
def jsDist (values : List ℚ) : Dist :=
  values.foldl (fun d v => bump d (bucketOf v)) ⟨0, 0, 0, 0, 0⟩

/-- `values.reduce((a, b) => a + b, 0)` (src/index.js line 253). -/
def sumValues (values : List ℚ) : ℚ :=
  values.foldl (fun a b => a + b) 0

/-- Response body of GET /api/photos/:photoId/ratings (line 262). -/
structure Summary where
  photoId : String
  average : ℚ
  count : ℕ
  distribution : Dist
deriving DecidableEq

/-- src/index.js lines 251-262: count, sum, `count ? sum / count : 0`,
and the bucket distribution. -/
def getRatingSummary (photoId : String) (values : List ℚ) : Summary :=
  let count := values.length
  let sum := sumValues values
  let average := if count = 0 then 0 else sum / (count : ℚ)
  ⟨photoId, average, count, jsDist values⟩

/-- The query `SELECT c.value FROM c WHERE c.photoId = @photoId`
followed by `.map(r => Number(r.value)).filter(Number.isFinite)`
(src/index.js lines 244-251).  Stored values are rationals, i.e.
finite numbers, on which both the coercion and the finiteness filter
are the identity. -/
def ratingValuesFor (s : AppState) (p : String) : List ℚ :=
  (s.ratings.filter (fun d => d.photoId == p)).map (fun d => d.value)

/-- GET /api/photos/:photoId/ratings end to end on the store model. -/
def getRatings (s : AppState) (p : String) : Summary :=
  getRatingSummary p (ratingValuesFor s p)

/-- `req.body.people.split(",")` splits on the comma character; JS
`"".split(",")` is `[""]`, which this auxiliary reproduces. -/
def splitOnCharAux (sep : Char) : List Char → List Char → List (List Char)
  | [], acc => [acc.reverse]
  | c :: t, acc =>
    if c = sep then acc.reverse :: splitOnCharAux sep t []
    else splitOnCharAux sep t (c :: acc)

/-- `s.split(",")` as a list of strings. -/
def jsSplitComma (s : String) : List String :=
  (splitOnCharAux (Char.ofNat 44) s.data []).map String.mk

/-- src/index.js lines 175-177, the `people` field of the photo
document: `((req.body.people || "").trim()) ? req.body.people.split(",")
.map(s => s.trim()).filter(Boolean) : []`.  `filter(Boolean)` keeps the
truthy, i.e. non-empty, strings. -/
def parsePeople (people : String) : List String :=
  if jsTrim people = "" then []
  else ((jsSplitComma people).map jsTrim).filter (fun x => !(x == ""))

/-- The Cosmos environment variables read by `getCosmosConfig`
(src/index.js lines 26-35); an unset variable is the empty (falsy)
string. -/
structure CosmosConfig where
  endpoint : String
  key : String
  dbName : String
  photosContainerName : String
  commentsContainerName : String
  ratingsContainerName : String
deriving DecidableEq

/-- Reachability of the database and of each named container, i.e.
whether the corresponding `.read()` call succeeds (src/index.js lines
51-72). -/
structure CosmosEnv where
  dbOk : Bool
  photosOk : Bool
  commentsOk : Bool
  ratingsOk : Bool
deriving DecidableEq

/-- src/index.js lines 37-75, `verifyAndGetCosmosContainers`: the
missing-variable checks in source order, then the database read, then
the three container reads in order photos, comments, ratings.  A thrown
`Error` is an `Except.error` carrying the message; the handlers catch
it and answer with a structured error response, so the process never
crashes. -/
def verifyAndGetCosmosContainers (cfg : CosmosConfig) (env : CosmosEnv) :
    Except String (String × String × String) :=
  if cfg.endpoint = "" ∨ cfg.key = "" ∨ cfg.dbName = "" then
    Except.error "Cosmos missing: COSMOS_ENDPOINT / COSMOS_KEY / COSMOS_DB_NAME"
  else if cfg.photosContainerName = "" then
    Except.error "Cosmos missing: COSMOS_CONTAINER (expected \x27photos\x27)"
  else if cfg.commentsContainerName = "" then
    Except.error "Cosmos missing: COSMOS_COMMENT_CONTAINER (expected \x27comments\x27)"
  else if cfg.ratingsContainerName = "" then
    Except.error "Cosmos missing: COSMOS_RATINGS_CONTAINER (expected \x27ratings\x27)"
  else if env.dbOk = false then
    Except.error ("Cosmos database \x27" ++ cfg.dbName ++
      "\x27 not found. Check COSMOS_DB_NAME (must be DB name from Data Explorer).")
  else if env.photosOk = false then
    Except.error ("Cosmos container \x27" ++ cfg.photosContainerName ++
      "\x27 not found in DB \x27" ++ cfg.dbName ++ "\x27.")
  else if env.commentsOk = false then
    Except.error ("Cosmos container \x27" ++ cfg.commentsContainerName ++
      "\x27 not found in DB \x27" ++ cfg.dbName ++ "\x27.")
  else if env.ratingsOk = false then
    Except.error ("Cosmos container \x27" ++ cfg.ratingsContainerName ++
      "\x27 not found in DB \x27" ++ cfg.dbName ++ "\x27.")
  else
    Except.ok (cfg.photosContainerName, cfg.commentsContainerName,
      cfg.ratingsContainerName)

/-- Modelled from the spec (section 4.2 rounding rule): round to the
nearest integer with ties away from zero — `⌊v + 1/2⌋` for
non-negative `v`, `⌈v - 1/2⌉` for negative `v` — used only to compare
the source's bucket rule against the spec's words. -/
def roundHalfAway (v : ℚ) : ℤ :=
  if 0 ≤ v then ⌊v + 1 / 2⌋ else ⌈v - 1 / 2⌉

/-- The bucket the spec describes: ties-away-from-zero rounding, then
clamping into [1, 5]. -/
def bucketSpec (v : ℚ) : ℤ :=
  max 1 (min 5 (roundHalfAway v))

/-- Total count held by a distribution object. -/
def distTotal (d : Dist) : ℕ :=
  d.b1 + d.b2 + d.b3 + d.b4 + d.b5

/-- Adjacent-whitespace check: true when no two consecutive characters
are both whitespace. -/
def noAdjWs : List Char → Bool
  | a :: b :: t => !(isWs a && isWs b) && noAdjWs (b :: t)
  | _ => true

lemma head?_dropWhile_false {α : Type} (p : α → Bool) (l : List α) (a : α)
    (h : (l.dropWhile p).head? = some a) : p a = false := by
  induction l with
  | nil => simp at h
  | cons x t ih =>
    rw [List.dropWhile_cons] at h
    by_cases hx : p x = true
    · exact ih (by simpa [hx] using h)
    · have hxa : x = a := by
        rw [if_neg hx] at h
        simpa using h
      subst hxa
      simpa using hx

lemma getLast?_dropWhile {α : Type} (p : α → Bool) (l : List α)
    (h : l.dropWhile p ≠ []) : (l.dropWhile p).getLast? = l.getLast? := by
  induction l with
  | nil => simp at h
  | cons x t ih =>
    rw [List.dropWhile_cons] at h ⊢
    by_cases hx : p x = true
    · simp only [hx, if_true] at h ⊢
      have ht : t ≠ [] := by
        intro he
        subst he
        simp at h
      rw [ih h]
      cases t with
      | nil => exact absurd rfl ht
      | cons y t' => rw [List.getLast?_cons_cons]
    · simp [hx]

lemma jsTrim_head_not_ws (s : String) (c : Char)
    (h : (jsTrim s).data.head? = some c) : isWs c = false := by
  have hd : (jsTrim s).data =
      (((s.data.dropWhile isWs).reverse.dropWhile isWs).reverse) := rfl
  rw [hd, List.head?_reverse] at h
  have hne : (s.data.dropWhile isWs).reverse.dropWhile isWs ≠ [] := by
    intro he
    rw [he] at h
    simp at h
  rw [getLast?_dropWhile isWs _ hne, List.getLast?_reverse] at h
  exact head?_dropWhile_false isWs _ c h

lemma jsTrim_last_not_ws (s : String) (c : Char)
    (h : (jsTrim s).data.getLast? = some c) : isWs c = false := by
  have hd : (jsTrim s).data =
      (((s.data.dropWhile isWs).reverse.dropWhile isWs).reverse) := rfl
  rw [hd, List.getLast?_reverse] at h
  exact head?_dropWhile_false isWs _ c h

lemma jsTrim_eq_self (s : String)
    (hh : ∀ c, s.data.head? = some c → isWs c = false)
    (hl : ∀ c, s.data.getLast? = some c → isWs c = false) :
    jsTrim s = s := by
  have h1 : s.data.dropWhile isWs = s.data := by
    cases hd : s.data with
    | nil => rfl
    | cons x t =>
      have hx : isWs x = false := hh x (by rw [hd]; rfl)
      rw [List.dropWhile_cons, hx]
      simp
  have h2 : s.data.reverse.dropWhile isWs = s.data.reverse := by
    cases hr : s.data.reverse with
    | nil => rfl
    | cons y ys =>
      have hy : isWs y = false := by
        apply hl
        rw [← List.head?_reverse, hr]
        rfl
      rw [List.dropWhile_cons, hy]
      simp
  show String.mk (((s.data.dropWhile isWs).reverse.dropWhile isWs).reverse) = s
  rw [h1, h2, List.reverse_reverse]

lemma jsTrim_idem (s : String) : jsTrim (jsTrim s) = jsTrim s :=
  jsTrim_eq_self (jsTrim s) (jsTrim_head_not_ws s) (jsTrim_last_not_ws s)

lemma collapseWs_cons_not_ws (b : Char) (t : List Char) (h : isWs b = false) :
    collapseWs (b :: t) = b :: collapseWs t := by
  cases t with
  | nil => simp [collapseWs, h]
  | cons c t' => simp [collapseWs, h]

lemma noAdjWs_collapseWs (l : List Char) : noAdjWs (collapseWs l) = true := by
  induction l with
  | nil => rfl
  | cons a t ih =>
    cases t with
    | nil =>
      cases h : isWs a <;> simp [collapseWs, noAdjWs, h]
    | cons b t' =>
      by_cases hab : (isWs a && isWs b) = true
      · rw [show collapseWs (a :: b :: t') = collapseWs (b :: t') by
          simp [collapseWs, hab]]
        exact ih
      · rw [show collapseWs (a :: b :: t') =
          (if isWs a then Char.ofNat 32 else a) :: collapseWs (b :: t') by
          simp [collapseWs, hab]]
        by_cases ha : isWs a = true
        · have hb : isWs b = false := by
            cases hbv : isWs b
            · rfl
            · rw [ha, hbv] at hab; simp at hab
          rw [if_pos ha, collapseWs_cons_not_ws b t' hb]
          rw [collapseWs_cons_not_ws b t' hb] at ih
          simp [noAdjWs, hb, ih]
        · rw [if_neg ha]
          cases hc : collapseWs (b :: t') with
          | nil => rfl
          | cons y ys =>
            rw [hc] at ih
            simp only [noAdjWs, ih, Bool.and_true]
            simp only [Bool.not_eq_true] at ha
            simp [ha]

lemma mem_collapseWs_ws (l : List Char) (c : Char) (hc : c ∈ collapseWs l)
    (hw : isWs c = true) : c = Char.ofNat 32 := by
  induction l with
  | nil => simp [collapseWs] at hc
  | cons a t ih =>
    cases t with
    | nil =>
      simp only [collapseWs, List.mem_singleton] at hc
      by_cases ha : isWs a = true
      · rw [hc, if_pos ha]
      · rw [if_neg ha] at hc
        rw [hc] at hw
        exact absurd hw (by simp [ha])
    | cons b t' =>
      by_cases hab : (isWs a && isWs b) = true
      · rw [show collapseWs (a :: b :: t') = collapseWs (b :: t') by
          simp [collapseWs, hab]] at hc
        exact ih hc
      · rw [show collapseWs (a :: b :: t') =
          (if isWs a then Char.ofNat 32 else a) :: collapseWs (b :: t') by
          simp [collapseWs, hab]] at hc
        rcases List.mem_cons.mp hc with hhd | htl
        · by_cases ha : isWs a = true
          · rw [hhd, if_pos ha]
          · rw [if_neg ha] at hhd
            rw [hhd] at hw
            exact absurd hw (by simp [ha])
        · exact ih htl

lemma noAdjWs_cons_tail (a : Char) (l : List Char)
    (h : noAdjWs (a :: l) = true) : noAdjWs l = true := by
  cases l with
  | nil => rfl
  | cons b t =>
    simp only [noAdjWs, Bool.and_eq_true] at h
    exact h.2

lemma noAdjWs_take (n : ℕ) (l : List Char) (h : noAdjWs l = true) :
    noAdjWs (l.take n) = true := by
  induction l generalizing n with
  | nil => rw [List.take_nil]; rfl
  | cons a t ih =>
    cases n with
    | zero => rfl
    | succ m =>
      rw [List.take_succ_cons]
      cases t with
      | nil =>
        cases m <;> rfl
      | cons b t' =>
        cases m with
        | zero => rfl
        | succ k =>
          rw [List.take_succ_cons]
          simp only [noAdjWs, Bool.and_eq_true] at h ⊢
          refine ⟨h.1, ?_⟩
          have := ih h.2 (n := k + 1)
          rwa [List.take_succ_cons] at this

lemma sameRatingKey_self (d : RatingDoc) : sameRatingKey d d = true := by
  simp [sameRatingKey]

lemma sameRatingKey_true_iff (d e : RatingDoc) :
    sameRatingKey d e = true ↔ e.photoId = d.photoId ∧ e.id = d.id := by
  simp [sameRatingKey]

lemma filter_map_replace (d : RatingDoc) (l : List RatingDoc)
    (h : KeyNodup l) (hany : l.any (fun e => sameRatingKey d e) = true) :
    (l.map (fun e => if sameRatingKey d e then d else e)).filter
        (fun e => sameRatingKey d e) = [d] := by
  induction l with
  | nil => simp at hany
  | cons a t ih =>
    have hpw := (List.pairwise_cons.mp h)
    by_cases hpa : sameRatingKey d a = true
    · rw [List.map_cons, if_pos hpa, List.filter_cons, if_pos (sameRatingKey_self d)]
      have htail : (t.map (fun e => if sameRatingKey d e then d else e)).filter
          (fun e => sameRatingKey d e) = [] := by
        rw [List.filter_eq_nil_iff]
        intro x hx
        rcases List.mem_map.mp hx with ⟨e, he, hfe⟩
        have hka : a.photoId = d.photoId ∧ a.id = d.id :=
          (sameRatingKey_true_iff d a).mp hpa
        have hne : (a.photoId, a.id) ≠ (e.photoId, e.id) := hpw.1 e he
        have hkey : sameRatingKey d e = false := by
          rcases hke : sameRatingKey d e with _ | _
          · rfl
          · exact absurd (by
              have := (sameRatingKey_true_iff d e).mp hke
              rw [Prod.mk.injEq, hka.1, hka.2, this.1, this.2]
              exact ⟨rfl, rfl⟩) hne
        rw [if_neg (by simp [hkey])] at hfe
        rw [← hfe]
        simp [hkey]
      rw [htail]
    · rw [List.map_cons, if_neg hpa, List.filter_cons,
        if_neg (by simpa using hpa)]
      have hany' : t.any (fun e => sameRatingKey d e) = true := by
        rcases List.any_eq_true.mp hany with ⟨x, hx, hpx⟩
        rcases List.mem_cons.mp hx with rfl | hxt
        · exact absurd hpx hpa
        · exact List.any_eq_true.mpr ⟨x, hxt, hpx⟩
      exact ih hpw.2 hany'

lemma filter_upsertRating (l : List RatingDoc) (d : RatingDoc)
    (h : KeyNodup l) :
    (upsertRating l d).filter (fun e => sameRatingKey d e) = [d] := by
  unfold upsertRating
  by_cases hany : l.any (fun e => sameRatingKey d e) = true
  · rw [if_pos hany]
    exact filter_map_replace d l h hany
  · rw [if_neg hany, List.filter_append]
    have hl : l.filter (fun e => sameRatingKey d e) = [] := by
      rw [List.filter_eq_nil_iff]
      intro x hx hpx
      exact hany (List.any_eq_true.mpr ⟨x, hx, hpx⟩)
    rw [hl, List.filter_cons, if_pos (sameRatingKey_self d)]
    rfl

lemma keyNodup_upsertRating (l : List RatingDoc) (d : RatingDoc)
    (h : KeyNodup l) : KeyNodup (upsertRating l d) := by
  unfold upsertRating
  by_cases hany : l.any (fun e => sameRatingKey d e) = true
  · rw [if_pos hany]
    unfold KeyNodup
    rw [List.pairwise_map]
    have hkey : ∀ e : RatingDoc,
        (((if sameRatingKey d e then d else e) : RatingDoc).photoId,
         ((if sameRatingKey d e then d else e) : RatingDoc).id) =
        (e.photoId, e.id) := by
      intro e
      by_cases hke : sameRatingKey d e = true
      · rw [if_pos hke]
        have := (sameRatingKey_true_iff d e).mp hke
        rw [this.1, this.2]
      · rw [if_neg (by simpa using hke)]
    exact h.imp (by
      intro a b hab
      rw [hkey a, hkey b]
      exact hab)
  · rw [if_neg hany]
    unfold KeyNodup
    rw [List.pairwise_append]
    refine ⟨h, List.pairwise_singleton _ _, ?_⟩
    intro a ha b hb
    have hb' : b = d := by simpa using hb
    rw [hb']
    have hka : sameRatingKey d a = false := by
      rcases hke : sameRatingKey d a with _ | _
      · rfl
      · exact absurd (List.any_eq_true.mpr ⟨a, ha, hke⟩) hany
    intro he
    have : sameRatingKey d a = true := by
      apply (sameRatingKey_true_iff d a).mpr
      rw [Prod.mk.injEq] at he
      exact ⟨he.1, he.2⟩
    rw [this] at hka
    exact Bool.true_eq_false.mp hka

lemma postRating_valid_q (s : AppState) (p a now : String) (q : ℚ)
    (hq : q.isInt = true) (h1 : 1 ≤ q) (h2 : q ≤ 5) :
    postRating s p a (some q) now =
      ({ s with
          ratings := upsertRating s.ratings
            (RatingDoc.mk (ratingDocId p (normalizeAuthor a)) p
              (normalizeAuthor a) q now) },
       201) := by
  have hcond : ¬(q.isInt = false ∨ q < 1 ∨ 5 < q) := by
    rintro (hc | hc | hc)
    · rw [hq] at hc
      exact Bool.true_eq_false.mp hc
    · linarith
    · linarith
  simp only [postRating, if_neg hcond]

lemma postRating_valid (s : AppState) (p a now : String) (r : ℤ)
    (h1 : 1 ≤ r) (h2 : r ≤ 5) :
    postRating s p a (some (r : ℚ)) now =
      ({ s with
          ratings := upsertRating s.ratings
            (RatingDoc.mk (ratingDocId p (normalizeAuthor a)) p
              (normalizeAuthor a) (r : ℚ) now) },
       201) := by
  apply postRating_valid_q
  · simp [Rat.isInt, Rat.den_intCast]
  · exact_mod_cast h1
  · exact_mod_cast h2

lemma string_append_ne (p : String) {s t : String} (h : s ≠ t) :
    p ++ s ≠ p ++ t := by
  intro he
  apply h
  have hd : (p ++ s).data = (p ++ t).data := by rw [he]
  rw [String.data_append, String.data_append] at hd
  have hst := List.append_cancel_left hd
  cases s
  cases t
  exact congrArg String.mk hst

lemma bucketOf_ge_one (v : ℚ) : 1 ≤ bucketOf v :=
  le_max_left 1 _

lemma bucketOf_le_five (v : ℚ) : bucketOf v ≤ 5 :=
  max_le (by norm_num) (min_le_left 5 _)

lemma bucketOf_eq_bucketSpec (v : ℚ) : bucketOf v = bucketSpec v := by
  by_cases h : 0 ≤ v
  · unfold bucketOf bucketSpec roundHalfAway
    rw [if_pos h, round_eq]
  · have hv : v < 0 := lt_of_not_le h
    have hr : round v ≤ 0 := by
      rw [round_eq]
      have : ⌊v + 1 / 2⌋ < 1 := by
        rw [Int.floor_lt]
        push_cast
        linarith
      omega
    have ha : roundHalfAway v ≤ 0 := by
      unfold roundHalfAway
      rw [if_neg h]
      rw [Int.ceil_le]
      push_cast
      linarith
    unfold bucketOf bucketSpec
    rw [min_eq_right (le_trans hr (by norm_num)),
        min_eq_right (le_trans ha (by norm_num)),
        max_eq_left (le_trans hr (by norm_num)),
        max_eq_left (le_trans ha (by norm_num))]

lemma distTotal_bump (d : Dist) (b : ℤ) (h1 : 1 ≤ b) (h5 : b ≤ 5) :
    distTotal (bump d b) = distTotal d + 1 := by
  have hb : b = 1 ∨ b = 2 ∨ b = 3 ∨ b = 4 ∨ b = 5 := by omega
  rcases hb with rfl | rfl | rfl | rfl | rfl <;>
    simp [bump, distTotal] <;> omega

lemma distTotal_foldl (values : List ℚ) :
    ∀ d : Dist, distTotal (values.foldl (fun d v => bump d (bucketOf v)) d) =
      distTotal d + values.length := by
  induction values with
  | nil => intro d; simp
  | cons v vs ih =>
    intro d
    rw [List.foldl_cons, ih, distTotal_bump d (bucketOf v) (bucketOf_ge_one v)
      (bucketOf_le_five v)]
    simp only [List.length_cons]
    omega

/-- C1: for every photo id p and author a, two successive upsertRating
calls by the same author a for the same photo p with valid integer
values r1 then r2 (r1 ≠ r2) leave exactly one stored rating document
for (p, a), and its value is r2: the rating document id is a
deterministic function of (photoId, normalizedAuthor), so the second
write replaces the first via upsert rather than adding a document. -/
theorem c1_upsert_last_write_wins (s : AppState) (p a t1 t2 : String)
    (r1 r2 : ℤ) (hkey : KeyNodup s.ratings)
    (h1l : 1 ≤ r1) (h1u : r1 ≤ 5) (h2l : 1 ≤ r2) (h2u : r2 ≤ 5)
    (hne : r1 ≠ r2) :
    ratingsFor ((postRating (postRating s p a (some (r1 : ℚ)) t1).1 p a
        (some (r2 : ℚ)) t2).1).ratings p (normalizeAuthor a) =
      [RatingDoc.mk (ratingDocId p (normalizeAuthor a)) p (normalizeAuthor a)
        (r2 : ℚ) t2] := by
  rw [postRating_valid s p a t1 r1 h1l h1u,
      postRating_valid _ p a t2 r2 h2l h2u]
  exact filter_upsertRating
    (upsertRating s.ratings (RatingDoc.mk (ratingDocId p (normalizeAuthor a))
      p (normalizeAuthor a) (r1 : ℚ) t1))
    (RatingDoc.mk (ratingDocId p (normalizeAuthor a)) p (normalizeAuthor a)
      (r2 : ℚ) t2)
    (keyNodup_upsertRating _ _ hkey)

/-- Witness for C1 at a concrete store and inputs. -/
theorem c1_upsert_last_write_wins_witness :
    KeyNodup (AppState.mk [] [] []).ratings ∧ (1 : ℤ) ≤ 3 ∧ (3 : ℤ) ≤ 5 ∧
    (1 : ℤ) ≤ 5 ∧ (5 : ℤ) ≤ 5 ∧ (3 : ℤ) ≠ 5 ∧
    ratingsFor ((postRating (postRating (AppState.mk [] [] []) "p" "alice"
        (some ((3 : ℤ) : ℚ)) "t1").1 "p" "alice"
        (some ((5 : ℤ) : ℚ)) "t2").1).ratings "p" (normalizeAuthor "alice") =
      [RatingDoc.mk (ratingDocId "p" (normalizeAuthor "alice")) "p"
        (normalizeAuthor "alice") ((5 : ℤ) : ℚ) "t2"] :=
  ⟨List.Pairwise.nil, by decide, by decide, by decide, by decide, by decide,
   c1_upsert_last_write_wins (AppState.mk [] [] []) "p" "alice" "t1" "t2" 3 5
     List.Pairwise.nil (by decide) (by decide) (by decide) (by decide)
     (by decide)⟩

/-- C2: every rating value is assigned to exactly one of the five
buckets 1..5 (so the distribution counts add up to the number of
values), and the source's bucket rule Math.max(1, Math.min(5,
Math.round(v))) agrees, on every rational value, with the spec's rule
of rounding to the nearest integer with ties away from zero and then
clamping into [1, 5]; the Dist structure carries all five buckets even
when a count is zero. -/
theorem c2_bucket_assignment :
    (∀ v : ℚ, 1 ≤ bucketOf v ∧ bucketOf v ≤ 5 ∧ bucketOf v = bucketSpec v) ∧
    (∀ values : List ℚ, distTotal (jsDist values) = values.length) := by
  constructor
  · intro v
    exact ⟨bucketOf_ge_one v, bucketOf_le_five v, bucketOf_eq_bucketSpec v⟩
  · intro values
    unfold jsDist
    rw [distTotal_foldl values (Dist.mk 0 0 0 0 0)]
    simp [distTotal]

/-- C3: a rating request whose value is not an integer or lies outside
1..5 (this includes the NaN and infinite results of the Number
coercion, modelled as none) is rejected with HTTP 400 and the store is
returned unchanged: no rating document is written. -/
theorem c3_invalid_rating_rejected (s : AppState) (p a now : String) (q : ℚ)
    (h : q.isInt = false ∨ q < 1 ∨ 5 < q) :
    postRating s p a (some q) now = (s, 400) ∧
    postRating s p a none now = (s, 400) := by
  constructor
  · simp only [postRating, if_pos h]
  · rfl

/-- Witness for C3 at the out-of-range value 6. -/
theorem c3_invalid_rating_rejected_witness :
    ((6 : ℚ).isInt = false ∨ (6 : ℚ) < 1 ∨ 5 < (6 : ℚ)) ∧
    (postRating (AppState.mk [] [] []) "p" "bob" (some 6) "t" =
        (AppState.mk [] [] [], 400) ∧
     postRating (AppState.mk [] [] []) "p" "bob" none "t" =
        (AppState.mk [] [] [], 400)) :=
  ⟨Or.inr (Or.inr (by norm_num)),
   c3_invalid_rating_rejected (AppState.mk [] [] []) "p" "bob" "t" 6
     (Or.inr (Or.inr (by norm_num)))⟩

/-- C5: a photo with zero stored rating values gets count = 0 and
average exactly 0 (a rational, never NaN or null), with all five
distribution buckets present and equal to 0. -/
theorem c5_empty_summary (s : AppState) (p : String)
    (h : ratingValuesFor s p = []) :
    getRatings s p = Summary.mk p 0 0 (Dist.mk 0 0 0 0 0) := by
  unfold getRatings
  rw [h]
  rfl

/-- Witness for C5 at the empty store. -/
theorem c5_empty_summary_witness :
    ratingValuesFor (AppState.mk [] [] []) "p" = [] ∧
    getRatings (AppState.mk [] [] []) "p" =
      Summary.mk "p" 0 0 (Dist.mk 0 0 0 0 0) :=
  ⟨rfl, c5_empty_summary (AppState.mk [] [] []) "p" rfl⟩

/-- C4: the sanitizing step of ratingDocId collapses distinct
normalized authors: "a b" and "a_b" normalize to distinct authors yet
derive the same rating document id for every photo, so an upsert by one
replaces the stored rating of the other (here: rating 3 by "a b" then
rating 5 by "a_b" leaves a single document holding 5). -/
theorem c4_rating_id_collision :
    normalizeAuthor "a b" ≠ normalizeAuthor "a_b" ∧
    (∀ p : String, ratingDocId p "a b" = ratingDocId p "a_b") ∧
    (∀ p t1 t2 : String,
      (postRating (postRating (AppState.mk [] [] []) p "a b" (some 3) t1).1
          p "a_b" (some 5) t2).1.ratings =
        [RatingDoc.mk (ratingDocId p "a_b") p "a_b" 5 t2]) := by
  have hsafe1 : safeAuthorOf "a b" = "a_b" := by decide
  have hsafe2 : safeAuthorOf "a_b" = "a_b" := by decide
  have hna1 : normalizeAuthor "a b" = "a b" := by decide
  have hna2 : normalizeAuthor "a_b" = "a_b" := by decide
  refine ⟨by decide, ?_, ?_⟩
  · intro p
    unfold ratingDocId
    rw [hsafe1, hsafe2]
  · intro p t1 t2
    rw [postRating_valid_q (AppState.mk [] [] []) p "a b" t1 3 (by decide)
        (by decide) (by decide),
      postRating_valid_q _ p "a_b" t2 5 (by decide) (by decide) (by decide)]
    simp [upsertRating, sameRatingKey, ratingDocId, hna1, hna2, hsafe1, hsafe2]

/-- C7: author normalization does not fold case: "Alice" and "alice"
normalize to distinct authors, derive distinct rating document ids for
every photo id, and their ratings are stored as two separate documents
rather than one replacing the other. -/
theorem c7_case_sensitive_authors :
    normalizeAuthor "Alice" ≠ normalizeAuthor "alice" ∧
    (∀ p : String, ratingDocId p "Alice" ≠ ratingDocId p "alice") ∧
    (∀ p t1 t2 : String,
      (postRating (postRating (AppState.mk [] [] []) p "Alice" (some 4) t1).1
          p "alice" (some 2) t2).1.ratings =
        [RatingDoc.mk (ratingDocId p "Alice") p "Alice" 4 t1,
         RatingDoc.mk (ratingDocId p "alice") p "alice" 2 t2]) := by
  have hsafe1 : safeAuthorOf "Alice" = "Alice" := by decide
  have hsafe2 : safeAuthorOf "alice" = "alice" := by decide
  have hna1 : normalizeAuthor "Alice" = "Alice" := by decide
  have hna2 : normalizeAuthor "alice" = "alice" := by decide
  have hid : ∀ p : String, ratingDocId p "Alice" ≠ ratingDocId p "alice" := by
    intro p
    unfold ratingDocId
    rw [hsafe1, hsafe2]
    exact string_append_ne _ (by decide)
  refine ⟨by decide, hid, ?_⟩
  intro p t1 t2
  rw [postRating_valid_q (AppState.mk [] [] []) p "Alice" t1 4 (by decide)
      (by decide) (by decide),
    postRating_valid_q _ p "alice" t2 2 (by decide) (by decide) (by decide)]
  have hbeq : (ratingDocId p "Alice" == ratingDocId p "alice") = false :=
    beq_eq_false_iff_ne.mpr (hid p)
  simp [upsertRating, sameRatingKey, hna1, hna2, hbeq]

lemma normalizeAuthor_eq (author : String) :
    normalizeAuthor author =
      if List.take 40 (collapseWs (jsTrim (if author = "" then "anonymous"
          else author)).data) = [] then "anonymous"
      else String.mk (List.take 40 (collapseWs (jsTrim (if author = ""
          then "anonymous" else author)).data)) := rfl

/-- C6: an absent or blank-after-trimming author defaults to
"anonymous"; the normalized author is produced by trimming, collapsing
internal whitespace runs to single spaces (so it never contains two
adjacent whitespace characters, every whitespace character in it is a
plain space, and it never starts with whitespace) and capping at 40
characters; a comment whose trimmed body is empty is rejected with
HTTP 400 and nothing is written, while a non-empty body is stored with
the normalized author. -/
theorem c6_comment_normalization :
    (∀ a : String, jsTrim a = "" → normalizeAuthor a = "anonymous") ∧
    (∀ a : String, (normalizeAuthor a).length ≤ 40) ∧
    (∀ a : String, noAdjWs (normalizeAuthor a).data = true) ∧
    (∀ a : String, ∀ c ∈ (normalizeAuthor a).data,
      isWs c = true → c = Char.ofNat 32) ∧
    (∀ a : String, ∀ c : Char, (normalizeAuthor a).data.head? = some c →
      isWs c = false) ∧
    (∀ (s : AppState) (p a id now t : String), jsTrim t = "" →
      postComment s p a t id now = (s, 400)) ∧
    (∀ (s : AppState) (p a id now t : String), jsTrim t ≠ "" →
      postComment s p a t id now =
        ({ s with
            comments := s.comments ++
              [CommentDoc.mk id p (normalizeAuthor a) (jsTrim t) now] },
         201)) := by
  refine ⟨?_, ?_, ?_, ?_, ?_, ?_, ?_⟩
  · intro a h
    rw [normalizeAuthor_eq]
    by_cases ha : a = ""
    · rw [if_pos ha]
      decide
    · rw [if_neg ha, h]
      decide
  · intro a
    rw [normalizeAuthor_eq]
    by_cases hr : List.take 40 (collapseWs (jsTrim (if a = "" then "anonymous"
        else a)).data) = []
    · rw [if_pos hr]
      decide
    · rw [if_neg hr]
      exact List.length_take_le 40 _
  · intro a
    rw [normalizeAuthor_eq]
    by_cases hr : List.take 40 (collapseWs (jsTrim (if a = "" then "anonymous"
        else a)).data) = []
    · rw [if_pos hr]
      decide
    · rw [if_neg hr]
      exact noAdjWs_take 40 _ (noAdjWs_collapseWs _)
  · intro a c hc hw
    rw [normalizeAuthor_eq] at hc
    by_cases hr : List.take 40 (collapseWs (jsTrim (if a = "" then "anonymous"
        else a)).data) = []
    · rw [if_pos hr] at hc
      have hall : ∀ x ∈ ("anonymous" : String).data, isWs x = false := by decide
      rw [hall c hc] at hw
      exact absurd hw (by simp)
    · rw [if_neg hr] at hc
      exact mem_collapseWs_ws _ c (List.take_subset 40 _ hc) hw
  · intro a c h
    rw [normalizeAuthor_eq] at h
    by_cases hr : List.take 40 (collapseWs (jsTrim (if a = "" then "anonymous"
        else a)).data) = []
    · rw [if_pos hr] at h
      have hh : ("anonymous" : String).data.head? = some (Char.ofNat 97) := rfl
      rw [hh] at h
      have : Char.ofNat 97 = c := Option.some.inj h
      rw [← this]
      decide
    · rw [if_neg hr] at h
      cases hT : (jsTrim (if a = "" then "anonymous" else a)).data with
      | nil =>
        rw [hT] at hr
        exact absurd rfl hr
      | cons h0 tl =>
        have hws : isWs h0 = false := by
          apply jsTrim_head_not_ws (if a = "" then "anonymous" else a)
          rw [hT]
          rfl
        rw [hT, collapseWs_cons_not_ws h0 tl hws] at h
        have h40 : List.take 40 (h0 :: collapseWs tl) =
            h0 :: List.take 39 (collapseWs tl) := rfl
        rw [h40] at h
        have : h0 = c := by simpa using h
        rw [← this]
        exact hws
  · intro s p a id now t h
    simp [postComment, h]
  · intro s p a id now t h
    simp [postComment, h]

/-- Witness for C6: each guarded clause applied at concrete inputs. -/
theorem c6_comment_normalization_witness :
    jsTrim "   " = "" ∧ normalizeAuthor "   " = "anonymous" ∧
    (normalizeAuthor "  Alice   Bob  ").length ≤ 40 ∧
    noAdjWs (normalizeAuthor "  Alice   Bob  ").data = true ∧
    (normalizeAuthor "q").data.head? = some (Char.ofNat 113) ∧
    isWs (Char.ofNat 113) = false ∧
    jsTrim "   " = "" ∧
    postComment (AppState.mk [] [] []) "p" "Bob" "   " "i" "n" =
      (AppState.mk [] [] [], 400) ∧
    jsTrim " hello " ≠ "" ∧
    postComment (AppState.mk [] [] []) "p" "Bob" " hello " "i" "n" =
      ({ AppState.mk [] [] [] with
          comments := (AppState.mk [] [] []).comments ++
            [CommentDoc.mk "i" "p" (normalizeAuthor "Bob")
              (jsTrim " hello ") "n"] },
       201) :=
  ⟨by decide, c6_comment_normalization.1 "   " (by decide),
   c6_comment_normalization.2.1 "  Alice   Bob  ",
   c6_comment_normalization.2.2.1 "  Alice   Bob  ",
   by decide,
   c6_comment_normalization.2.2.2.2.1 "q" (Char.ofNat 113) (by decide),
   by decide,
   c6_comment_normalization.2.2.2.2.2.1 (AppState.mk [] [] []) "p" "Bob" "i"
     "n" "   " (by decide),
   by decide,
   c6_comment_normalization.2.2.2.2.2.2 (AppState.mk [] [] []) "p" "Bob" "i"
     "n" " hello " (by decide)⟩

/-- C9: the comma-separated people input is split into trimmed,
non-empty names: "Alice, Bob ,, Carol" yields exactly
["Alice", "Bob", "Carol"], an all-whitespace input yields the empty
list, and every member of the result is a non-empty string that is its
own trimming. -/
theorem c9_parse_people :
    parsePeople "Alice, Bob ,, Carol" = ["Alice", "Bob", "Carol"] ∧
    parsePeople "" = [] ∧
    (∀ s : String, jsTrim s = "" → parsePeople s = []) ∧
    (∀ (s x : String), x ∈ parsePeople s → x ≠ "" ∧ jsTrim x = x) := by
  refine ⟨by decide, by decide, ?_, ?_⟩
  · intro s h
    simp [parsePeople, h]
  · intro s x hx
    unfold parsePeople at hx
    by_cases h : jsTrim s = ""
    · rw [if_pos h] at hx
      simp at hx
    · rw [if_neg h] at hx
      rcases List.mem_filter.mp hx with ⟨hmem, hpred⟩
      refine ⟨by simpa using hpred, ?_⟩
      rcases List.mem_map.mp hmem with ⟨y, _, hy⟩
      rw [← hy]
      exact jsTrim_idem y

/-- Witness for C9: the guarded clauses at concrete inputs. -/
theorem c9_parse_people_witness :
    jsTrim "   " = "" ∧ parsePeople "   " = [] ∧
    "Alice" ∈ parsePeople "Alice, Bob ,, Carol" ∧
    ("Alice" ≠ "" ∧ jsTrim "Alice" = "Alice") :=
  ⟨by decide, c9_parse_people.2.2.1 "   " (by decide), by decide,
   c9_parse_people.2.2.2 "Alice, Bob ,, Carol" "Alice" (by decide)⟩

/-- C10: neither addComment nor upsertRating consults the photos
collection: even when the store holds no photo document with the given
photo id, a well-formed comment write and a well-formed rating write
both succeed with status 201, writing only to their own collections and
leaving the photos collection untouched. -/
theorem c10_no_referential_integrity (s : AppState)
    (p a t id now : String) (v : ℤ)
    (hphoto : ∀ d ∈ s.photos, d.id ≠ p)
    (ht : jsTrim t ≠ "") (h1 : 1 ≤ v) (h2 : v ≤ 5) :
    postComment s p a t id now =
      ({ s with
          comments := s.comments ++
            [CommentDoc.mk id p (normalizeAuthor a) (jsTrim t) now] },
       201) ∧
    postRating s p a (some (v : ℚ)) now =
      ({ s with
          ratings := upsertRating s.ratings
            (RatingDoc.mk (ratingDocId p (normalizeAuthor a)) p
              (normalizeAuthor a) (v : ℚ) now) },
       201) :=
  ⟨by simp [postComment, ht], postRating_valid s p a now v h1 h2⟩

/-- Witness for C10: a store whose only photo has a different id. -/
theorem c10_no_referential_integrity_witness :
    (∀ d ∈ (AppState.mk [PhotoDoc.mk "other" "u" "b" "t" "c" "l" [] "ts"]
        [] []).photos, d.id ≠ "missing") ∧
    jsTrim "hi" ≠ "" ∧ (1 : ℤ) ≤ 4 ∧ (4 : ℤ) ≤ 5 ∧
    (postComment (AppState.mk [PhotoDoc.mk "other" "u" "b" "t" "c" "l" [] "ts"]
        [] []) "missing" "Ann" "hi" "i" "n" =
      ({ AppState.mk [PhotoDoc.mk "other" "u" "b" "t" "c" "l" [] "ts"] [] []
          with
          comments := (AppState.mk
            [PhotoDoc.mk "other" "u" "b" "t" "c" "l" [] "ts"] [] []).comments
            ++ [CommentDoc.mk "i" "missing" (normalizeAuthor "Ann")
                  (jsTrim "hi") "n"] },
       201) ∧
     postRating (AppState.mk [PhotoDoc.mk "other" "u" "b" "t" "c" "l" [] "ts"]
        [] []) "missing" "Ann" (some ((4 : ℤ) : ℚ)) "n" =
      ({ AppState.mk [PhotoDoc.mk "other" "u" "b" "t" "c" "l" [] "ts"] [] []
          with
          ratings := upsertRating (AppState.mk
            [PhotoDoc.mk "other" "u" "b" "t" "c" "l" [] "ts"] [] []).ratings
            (RatingDoc.mk (ratingDocId "missing" (normalizeAuthor "Ann"))
              "missing" (normalizeAuthor "Ann") ((4 : ℤ) : ℚ) "n") },
       201)) :=
  ⟨by decide, by decide, by decide, by decide,
   c10_no_referential_integrity
     (AppState.mk [PhotoDoc.mk "other" "u" "b" "t" "c" "l" [] "ts"] [] [])
     "missing" "Ann" "hi" "i" "n" 4 (by decide) (by decide) (by decide)
     (by decide)⟩

/-- C8 counterexample: a missing database name (a database
configuration element) and a missing endpoint (a credential) produce
the very same error message, so the error does not name exactly which
of those configuration elements is missing and does not distinguish
the database from the credentials. -/
theorem c8_counterexample :
    verifyAndGetCosmosContainers (CosmosConfig.mk "e" "k" "" "p" "c" "r")
        (CosmosEnv.mk true true true true) =
      verifyAndGetCosmosContainers (CosmosConfig.mk "" "k" "db" "p" "c" "r")
        (CosmosEnv.mk true true true true) ∧
    verifyAndGetCosmosContainers (CosmosConfig.mk "e" "k" "" "p" "c" "r")
        (CosmosEnv.mk true true true true) =
      Except.error
        "Cosmos missing: COSMOS_ENDPOINT / COSMOS_KEY / COSMOS_DB_NAME" := by
  constructor <;> rfl

/-- C8 (amended): every configuration-verification failure is surfaced
as a structured error value rather than a crash, and the error names
the failing element with one exception: a missing endpoint, key, or
database name all yield one shared message naming those three
variables together (credentials are not distinguished from the
database name).  Each missing container name is reported individually,
and each unreachable element (database, photos, comments, ratings
collection) is reported with its own name. -/
theorem c8_config_errors (cfg : CosmosConfig) (env : CosmosEnv) :
    ((cfg.endpoint = "" ∨ cfg.key = "" ∨ cfg.dbName = "") →
      verifyAndGetCosmosContainers cfg env = Except.error
        "Cosmos missing: COSMOS_ENDPOINT / COSMOS_KEY / COSMOS_DB_NAME") ∧
    (cfg.endpoint ≠ "" → cfg.key ≠ "" → cfg.dbName ≠ "" →
      cfg.photosContainerName = "" →
      verifyAndGetCosmosContainers cfg env = Except.error
        "Cosmos missing: COSMOS_CONTAINER (expected \x27photos\x27)") ∧
    (cfg.endpoint ≠ "" → cfg.key ≠ "" → cfg.dbName ≠ "" →
      cfg.photosContainerName ≠ "" → cfg.commentsContainerName = "" →
      verifyAndGetCosmosContainers cfg env = Except.error
        "Cosmos missing: COSMOS_COMMENT_CONTAINER (expected \x27comments\x27)") ∧
    (cfg.endpoint ≠ "" → cfg.key ≠ "" → cfg.dbName ≠ "" →
      cfg.photosContainerName ≠ "" → cfg.commentsContainerName ≠ "" →
      cfg.ratingsContainerName = "" →
      verifyAndGetCosmosContainers cfg env = Except.error
        "Cosmos missing: COSMOS_RATINGS_CONTAINER (expected \x27ratings\x27)") ∧
    (cfg.endpoint ≠ "" → cfg.key ≠ "" → cfg.dbName ≠ "" →
      cfg.photosContainerName ≠ "" → cfg.commentsContainerName ≠ "" →
      cfg.ratingsContainerName ≠ "" → env.dbOk = false →
      verifyAndGetCosmosContainers cfg env = Except.error
        ("Cosmos database \x27" ++ cfg.dbName ++
          "\x27 not found. Check COSMOS_DB_NAME (must be DB name from Data Explorer).")) ∧
    (cfg.endpoint ≠ "" → cfg.key ≠ "" → cfg.dbName ≠ "" →
      cfg.photosContainerName ≠ "" → cfg.commentsContainerName ≠ "" →
      cfg.ratingsContainerName ≠ "" → env.dbOk = true →
      env.photosOk = false →
      verifyAndGetCosmosContainers cfg env = Except.error
        ("Cosmos container \x27" ++ cfg.photosContainerName ++
          "\x27 not found in DB \x27" ++ cfg.dbName ++ "\x27.")) ∧
    (cfg.endpoint ≠ "" → cfg.key ≠ "" → cfg.dbName ≠ "" →
      cfg.photosContainerName ≠ "" → cfg.commentsContainerName ≠ "" →
      cfg.ratingsContainerName ≠ "" → env.dbOk = true →
      env.photosOk = true → env.commentsOk = false →
      verifyAndGetCosmosContainers cfg env = Except.error
        ("Cosmos container \x27" ++ cfg.commentsContainerName ++
          "\x27 not found in DB \x27" ++ cfg.dbName ++ "\x27.")) ∧
    (cfg.endpoint ≠ "" → cfg.key ≠ "" → cfg.dbName ≠ "" →
      cfg.photosContainerName ≠ "" → cfg.commentsContainerName ≠ "" →
      cfg.ratingsContainerName ≠ "" → env.dbOk = true →
      env.photosOk = true → env.commentsOk = true → env.ratingsOk = false →
      verifyAndGetCosmosContainers cfg env = Except.error
        ("Cosmos container \x27" ++ cfg.ratingsContainerName ++
          "\x27 not found in DB \x27" ++ cfg.dbName ++ "\x27.")) ∧
    (cfg.endpoint ≠ "" → cfg.key ≠ "" → cfg.dbName ≠ "" →
      cfg.photosContainerName ≠ "" → cfg.commentsContainerName ≠ "" →
      cfg.ratingsContainerName ≠ "" → env.dbOk = true →
      env.photosOk = true → env.commentsOk = true → env.ratingsOk = true →
      verifyAndGetCosmosContainers cfg env = Except.ok
        (cfg.photosContainerName, cfg.commentsContainerName,
         cfg.ratingsContainerName)) := by
  refine ⟨?_, ?_, ?_, ?_, ?_, ?_, ?_, ?_, ?_⟩
  · intro h
    simp [verifyAndGetCosmosContainers, h]
  · intro h1 h2 h3 h4
    simp [verifyAndGetCosmosContainers, h1, h2, h3, h4]
  · intro h1 h2 h3 h4 h5
    simp [verifyAndGetCosmosContainers, h1, h2, h3, h4, h5]
  · intro h1 h2 h3 h4 h5 h6
    simp [verifyAndGetCosmosContainers, h1, h2, h3, h4, h5, h6]
  · intro h1 h2 h3 h4 h5 h6 h7
    simp [verifyAndGetCosmosContainers, h1, h2, h3, h4, h5, h6, h7]
  · intro h1 h2 h3 h4 h5 h6 h7 h8
    simp [verifyAndGetCosmosContainers, h1, h2, h3, h4, h5, h6, h7, h8]
  · intro h1 h2 h3 h4 h5 h6 h7 h8 h9
    simp [verifyAndGetCosmosContainers, h1, h2, h3, h4, h5, h6, h7, h8, h9]
  · intro h1 h2 h3 h4 h5 h6 h7 h8 h9 h10
    simp [verifyAndGetCosmosContainers, h1, h2, h3, h4, h5, h6, h7, h8, h9, h10]
  · intro h1 h2 h3 h4 h5 h6 h7 h8 h9 h10
    simp [verifyAndGetCosmosContainers, h1, h2, h3, h4, h5, h6, h7, h8, h9, h10]

/-- Witness for the amended C8: every clause applied at a concrete
configuration and environment exhibiting exactly that failure. -/
theorem c8_config_errors_witness :
    verifyAndGetCosmosContainers (CosmosConfig.mk "" "k" "d" "p" "c" "r")
        (CosmosEnv.mk true true true true) = Except.error
      "Cosmos missing: COSMOS_ENDPOINT / COSMOS_KEY / COSMOS_DB_NAME" ∧
    verifyAndGetCosmosContainers (CosmosConfig.mk "e" "k" "d" "" "c" "r")
        (CosmosEnv.mk true true true true) = Except.error
      "Cosmos missing: COSMOS_CONTAINER (expected \x27photos\x27)" ∧
    verifyAndGetCosmosContainers (CosmosConfig.mk "e" "k" "d" "p" "" "r")
        (CosmosEnv.mk true true true true) = Except.error
      "Cosmos missing: COSMOS_COMMENT_CONTAINER (expected \x27comments\x27)" ∧
    verifyAndGetCosmosContainers (CosmosConfig.mk "e" "k" "d" "p" "c" "")
        (CosmosEnv.mk true true true true) = Except.error
      "Cosmos missing: COSMOS_RATINGS_CONTAINER (expected \x27ratings\x27)" ∧
    verifyAndGetCosmosContainers (CosmosConfig.mk "e" "k" "d" "p" "c" "r")
        (CosmosEnv.mk false true true true) = Except.error
      ("Cosmos database \x27" ++ "d" ++
        "\x27 not found. Check COSMOS_DB_NAME (must be DB name from Data Explorer).") ∧
    verifyAndGetCosmosContainers (CosmosConfig.mk "e" "k" "d" "p" "c" "r")
        (CosmosEnv.mk true false true true) = Except.error
      ("Cosmos container \x27" ++ "p" ++ "\x27 not found in DB \x27" ++ "d" ++
        "\x27.") ∧
    verifyAndGetCosmosContainers (CosmosConfig.mk "e" "k" "d" "p" "c" "r")
        (CosmosEnv.mk true true false true) = Except.error
      ("Cosmos container \x27" ++ "c" ++ "\x27 not found in DB \x27" ++ "d" ++
        "\x27.") ∧
    verifyAndGetCosmosContainers (CosmosConfig.mk "e" "k" "d" "p" "c" "r")
        (CosmosEnv.mk true true true false) = Except.error
      ("Cosmos container \x27" ++ "r" ++ "\x27 not found in DB \x27" ++ "d" ++
        "\x27.") ∧
    verifyAndGetCosmosContainers (CosmosConfig.mk "e" "k" "d" "p" "c" "r")
        (CosmosEnv.mk true true true true) = Except.ok ("p", "c", "r") :=
  ⟨(c8_config_errors (CosmosConfig.mk "" "k" "d" "p" "c" "r")
      (CosmosEnv.mk true true true true)).1 (Or.inl rfl),
   (c8_config_errors (CosmosConfig.mk "e" "k" "d" "" "c" "r")
      (CosmosEnv.mk true true true true)).2.1 (by decide) (by decide)
      (by decide) rfl,
   (c8_config_errors (CosmosConfig.mk "e" "k" "d" "p" "" "r")
      (CosmosEnv.mk true true true true)).2.2.1 (by decide) (by decide)
      (by decide) (by decide) rfl,
   (c8_config_errors (CosmosConfig.mk "e" "k" "d" "p" "c" "")
      (CosmosEnv.mk true true true true)).2.2.2.1 (by decide) (by decide)
      (by decide) (by decide) (by decide) rfl,
   (c8_config_errors (CosmosConfig.mk "e" "k" "d" "p" "c" "r")
      (CosmosEnv.mk false true true true)).2.2.2.2.1 (by decide) (by decide)
      (by decide) (by decide) (by decide) (by decide) rfl,
   (c8_config_errors (CosmosConfig.mk "e" "k" "d" "p" "c" "r")
      (CosmosEnv.mk true false true true)).2.2.2.2.2.1 (by decide) (by decide)
      (by decide) (by decide) (by decide) (by decide) rfl rfl,
   (c8_config_errors (CosmosConfig.mk "e" "k" "d" "p" "c" "r")
      (CosmosEnv.mk true true false true)).2.2.2.2.2.2.1 (by decide)
      (by decide) (by decide) (by decide) (by decide) (by decide) rfl rfl rfl,
   (c8_config_errors (CosmosConfig.mk "e" "k" "d" "p" "c" "r")
      (CosmosEnv.mk true true true false)).2.2.2.2.2.2.2.1 (by decide)
      (by decide) (by decide) (by decide) (by decide) (by decide) rfl rfl rfl
      rfl,
   (c8_config_errors (CosmosConfig.mk "e" "k" "d" "p" "c" "r")
      (CosmosEnv.mk true true true true)).2.2.2.2.2.2.2.2 (by decide)
      (by decide) (by decide) (by decide) (by decide) (by decide) rfl rfl rfl
      rfl⟩

end SharePic
